import Mathlib

/-!
Verification of the GENIE-OPS submission-automation backend.

This file gives a shallow embedding, in Lean 4, of the parts of the Python
backend that the checked properties talk about:

* `app/automation/commands.py` — the command/result wire format;
* `app/automation/field_classifier.py` — the rule-based field-purpose
  classifier (including a small regex engine faithful to the fixed pattern
  shapes appearing in its keyword table);
* `app/automation/browser.py` — the form-fill loop and the DOM form-field
  extraction routine (the JavaScript evaluated in the page);
* `app/automation/browser_worker.py` — the worker-side select-fill cascade;
* `app/automation/browser_pool.py` — worker selection and command routing;
* `app/ai/form_reader.py` — the hybrid analysis policy and form-complexity
  test;
* `app/workflow/submitter.py` — the analysis step of the submission
  workflow;
* `app/workflow/manager.py` — the per-submission status/retry state machine
  and the scheduler's task-tracking discipline.

Python dictionaries are modelled as association lists, Python exceptions as
an `Except` monad, and the concurrent scheduler as a small-step transition
system whose events are the atomic steps of the asyncio event loop.
-/

namespace GenieOps

/-! ## Wire values

`commands.py` passes loosely typed Python values (`Dict[str, Any]`) through
the multiprocessing queues.  `PyVal` models the values that can appear in a
command or result record: `None`, strings, numbers, booleans, lists and
dictionaries (as association lists). -/

inductive PyVal : Type where
  | none : PyVal
  | str (s : String) : PyVal
  | int (n : Int) : PyVal
  | bool (b : Bool) : PyVal
  | list (xs : List PyVal) : PyVal
  | dict (entries : List (String × PyVal)) : PyVal

/-- Python `d[k]`: raises `KeyError` when the key is absent.  Lookup finds
the first matching key, as a Python dict has unique keys. -/
def dictGet (entries : List (String × PyVal)) (k : String) : Except String PyVal :=
  match entries.find? (fun e => e.1 = k) with
  | some e => .ok e.2
  | none => .error ("KeyError: " ++ k)

/-- Python `d.get(k, default)`. -/
def dictGetD (entries : List (String × PyVal)) (k : String) (d : PyVal) : PyVal :=
  match entries.find? (fun e => e.1 = k) with
  | some e => e.2
  | none => d

/-! ## commands.py — BrowserCommand / BrowserResult -/

/-- `BrowserCommand` dataclass: `command_id`, `command_type`, `params`
(a `Dict[str, Any]`, held here as a `PyVal`; the dataclass fields are
dynamically typed in Python). -/
structure BrowserCommand where
  command_id : PyVal
  command_type : PyVal
  params : PyVal

/-- `BrowserCommand.to_dict`. -/
def BrowserCommand.to_dict (c : BrowserCommand) : List (String × PyVal) :=
  [("command_id", c.command_id), ("command_type", c.command_type),
   ("params", c.params)]

/-- `BrowserCommand.from_dict`: `command_id` and `command_type` are read
with `data[...]` (raising on absence), `params` with
`data.get("params", \x7b\x7d)` (defaulting to the empty dict). -/
def BrowserCommand.from_dict (data : List (String × PyVal)) :
    Except String BrowserCommand := do
  let cid ← dictGet data "command_id"
  let ctype ← dictGet data "command_type"
  let params := dictGetD data "params" (.dict [])
  return { command_id := cid, command_type := ctype, params := params }

/-- `BrowserResult` dataclass: `command_id`, `status`, and the optional
`data`, `error`, `error_type` fields (dataclass defaults are `None`). -/
structure BrowserResult where
  command_id : PyVal
  status : PyVal
  data : PyVal := .none
  error : PyVal := .none
  error_type : PyVal := .none

/-- `BrowserResult.to_dict`. -/
def BrowserResult.to_dict (r : BrowserResult) : List (String × PyVal) :=
  [("command_id", r.command_id), ("status", r.status), ("data", r.data),
   ("error", r.error), ("error_type", r.error_type)]

/-- `BrowserResult.from_dict`: `command_id` and `status` are read with
`data[...]`, the rest with `data.get(...)` defaulting to `None`. -/
def BrowserResult.from_dict (data : List (String × PyVal)) :
    Except String BrowserResult := do
  let cid ← dictGet data "command_id"
  let status ← dictGet data "status"
  return { command_id := cid, status := status,
           data := dictGetD data "data" .none,
           error := dictGetD data "error" .none,
           error_type := dictGetD data "error_type" .none }

/-- `BrowserResult.error_result` classmethod: `error_type or "UnknownError"`
(`None` is falsy). -/
def BrowserResult.error_result (command_id : PyVal) (error : PyVal)
    (error_type : PyVal := .none) : BrowserResult :=
  { command_id := command_id, status := .str "error", error := error,
    error_type := match error_type with
      | .none => .str "UnknownError"
      | t => t }

end GenieOps

namespace GenieOps

/-- C10: For every BrowserCommand c, BrowserCommand.from_dict (c.to_dict)
recovers exactly c, and likewise for BrowserResult: the wire-format
serialization round-trips with no information loss. -/
theorem command_result_roundtrip :
    (∀ c : BrowserCommand, BrowserCommand.from_dict c.to_dict = .ok c) ∧
    (∀ r : BrowserResult, BrowserResult.from_dict r.to_dict = .ok r) := by
  constructor
  · intro c
    rfl
  · intro r
    rfl

end GenieOps

namespace GenieOps

/-! ## field_classifier.py — rule-based purpose classifier

The keyword table of `FieldPurposeClassifier` uses three shapes of regular
expression only: a word-boundary-delimited literal, two literals separated
by an optional arbitrary character, and a bare literal.
The engine below implements exactly what Python's `re.findall` does on
those shapes: greedy matching with backtracking for the optional
character, non-overlapping left-to-right counting. -/

/-- One regex token: a literal character, an optional arbitrary character
(Python `.?` — any character except a newline, greedy), or a word
boundary (Python `\b`). -/
inductive RTok : Type where
  | lit (c : Char) : RTok
  | anyOpt : RTok
  | bnd : RTok
  deriving DecidableEq, Repr

/-- Python `\w` on the lowercased ASCII text handled here: letters,
digits, underscore. -/
def isWordChar (c : Char) : Bool := c.isAlphanum || c = '_'

/-- Word-character test on an optional character (`none` = outside the
string, which counts as a non-word position). -/
def wordAt : Option Char → Bool
  | Option.none => false
  | some c => isWordChar c

/-- Try to match a token list at the current position; `prev` is the
character just before that position.  Returns the character before the
new position and the remaining suffix on success.  For `anyOpt` the
one-character alternative is tried first (greedy), then the empty one. -/
def matchFrom : List RTok → Option Char → List Char → Option (Option Char × List Char)
  | [], prev, rest => some (prev, rest)
  | RTok.lit _ :: _, _, [] => Option.none
  | RTok.lit c :: ts, _, x :: xs =>
      if x = c then matchFrom ts (some x) xs else Option.none
  | RTok.bnd :: ts, prev, rest =>
      if wordAt prev != wordAt rest.head? then matchFrom ts prev rest
      else Option.none
  | RTok.anyOpt :: ts, prev, rest =>
      (match rest with
       | x :: xs => if x ≠ '\n' then matchFrom ts (some x) xs else Option.none
       | [] => Option.none).orElse (fun _ => matchFrom ts prev rest)

/-- `re.findall` match count: scan left to right, count a match and resume
after it, advance one character otherwise.  All table patterns contain at
least one literal, so matches are never empty; the fuel (string length)
therefore suffices and the zero-width guard is only for totality. -/
def countFrom (p : List RTok) : Nat → Option Char → List Char → Nat
  | 0, _, _ => 0
  | _ + 1, _, [] => 0
  | fuel + 1, prev, x :: xs =>
      match matchFrom p prev (x :: xs) with
      | some (prev2, rest) =>
          if rest.length < xs.length + 1 then 1 + countFrom p fuel prev2 rest
          else 1 + countFrom p fuel (some x) xs
      | Option.none => countFrom p fuel (some x) xs

/-- Number of `re.findall` matches of pattern `p` in string `s`. -/
def reCount (p : List RTok) (s : String) : Nat :=
  countFrom p (s.length + 1) Option.none s.data

/-- Literal pattern characters. -/
def lits (s : String) : List RTok := s.data.map RTok.lit

/-- Pattern of the shape `\bword\b`. -/
def wordPat (s : String) : List RTok := RTok.bnd :: (lits s ++ [RTok.bnd])

/-- Pattern of the shape `left.?right`. -/
def gapPat (a b : String) : List RTok := lits a ++ RTok.anyOpt :: lits b

/-- Python `str.lower()` (adequate for the ASCII keyword table), mapped
over the characters. -/
def pyLower (s : String) : String := String.mk (s.data.map Char.toLower)

/-- A field as interchanged between the extraction, classification and
fill layers (the Python side passes dicts with these keys; `id` appears
in no producer but a dict may carry it). -/
structure FormField where
  selector : String := ""
  type : String := ""
  name : String := ""
  id : String := ""
  label : String := ""
  placeholder : String := ""
  required : Bool := false
  purpose : String := ""
  options : List String := []
  deriving DecidableEq, Repr

namespace FieldPurposeClassifier

/-- `PURPOSE_KEYWORDS`: the fixed keyword table, in dict insertion order. -/
def PURPOSE_KEYWORDS : List (String × List (List RTok)) :=
  [("name",
    [wordPat "name", wordPat "title", wordPat "product", wordPat "app",
     wordPat "tool", wordPat "company", wordPat "business", wordPat "brand",
     wordPat "startup", gapPat "product" "name", gapPat "app" "name",
     gapPat "company" "name", gapPat "business" "name", gapPat "tool" "name",
     gapPat "service" "name", gapPat "project" "name"]),
   ("url",
    [wordPat "url", wordPat "website", wordPat "site", wordPat "link",
     wordPat "homepage", wordPat "domain", wordPat "web",
     gapPat "web" "site", gapPat "home" "page", gapPat "site" "url",
     gapPat "website" "url", gapPat "landing" "page"]),
   ("email",
    [wordPat "email", wordPat "e-mail", wordPat "mail", wordPat "contact",
     gapPat "contact" "email", gapPat "email" "address",
     gapPat "your" "email"]),
   ("description",
    [wordPat "description", wordPat "desc", wordPat "about",
     wordPat "details", wordPat "info", wordPat "information",
     wordPat "summary", wordPat "pitch", wordPat "overview",
     gapPat "tell" "us", lits "describe", gapPat "what" "does"]),
   ("category",
    [wordPat "category", wordPat "categories", wordPat "tag", wordPat "tags",
     wordPat "type", wordPat "industry", wordPat "niche", wordPat "sector",
     gapPat "select" "category", gapPat "choose" "category"]),
   ("logo",
    [wordPat "logo", wordPat "image", wordPat "icon", wordPat "picture",
     wordPat "photo", wordPat "avatar", wordPat "thumbnail",
     gapPat "upload" "logo", gapPat "upload" "image",
     gapPat "company" "logo"])]

/-- Score of one purpose: total `re.findall` match count over its
patterns. -/
def purposeScore (text : String) (pats : List (List RTok)) : Nat :=
  (pats.map (fun p => reCount p text)).sum

/-- The `scores` dict built by `classify`, in table iteration order. -/
def scoresOf (text : String) : List (String × Nat) :=
  PURPOSE_KEYWORDS.map (fun e => (e.1, purposeScore text e.2))

/-- One comparison step of Python `max(..., key=...)`: replace the kept
entry only when a later value is strictly greater (ties keep the earlier
entry). -/
def pyStep (acc q : String × Nat) : String × Nat :=
  if q.2 > acc.2 then q else acc

/-- Python `max(scores, key=scores.get)`: the first entry whose value no
later entry strictly exceeds. -/
def pyMaxByVal : List (String × Nat) → Option (String × Nat)
  | [] => Option.none
  | x :: xs => some (xs.foldl pyStep x)

/-- `FieldPurposeClassifier.classify(field_text, field_type)`. -/
def classify (field_text : String) (field_type : String := "") : String :=
  let t := pyLower field_text
  if field_type = "email" then "email"
  else if field_type = "url" then "url"
  else if field_type = "file" then "logo"
  else
    let scores := scoresOf t
    let maxScore := scores.foldl (fun m q => Nat.max m q.2) 0
    if maxScore > 0 then
      match pyMaxByVal scores with
      | some b => b.1
      | Option.none => "other"
    else "other"

/-- `FieldPurposeClassifier.classify_fields(fields)`: per field, classify
the text `f"{name} {label} {placeholder}"` with the field's type and
store the purpose. -/
def classify_fields (fields : List FormField) : List FormField :=
  fields.map (fun f =>
    let field_text := f.name ++ " " ++ f.label ++ " " ++ f.placeholder
    let field_type := f.type
    { f with purpose := classify field_text field_type })

end FieldPurposeClassifier

end GenieOps

namespace GenieOps

namespace FieldPurposeClassifier

/-- A fold with Nat.max is zero exactly when the seed and every entry
value are zero. -/
theorem foldl_natMax_eq_zero_iff (l : List (String × Nat)) (a : Nat) :
    l.foldl (fun m q => Nat.max m q.2) a = 0 ↔ a = 0 ∧ ∀ q ∈ l, q.2 = 0 := by
  induction l generalizing a with
  | nil => simp
  | cons x xs ih =>
    simp only [List.foldl_cons, ih, List.mem_cons]
    constructor
    · rintro ⟨h, hall⟩
      rcases Nat.max_eq_zero_iff.mp h with ⟨ha, hx⟩
      exact ⟨ha, fun q hq => hq.elim (fun e => e ▸ hx) (hall q)⟩
    · rintro ⟨ha, hall⟩
      refine ⟨?_, fun q hq => hall q (Or.inr hq)⟩
      rw [ha, hall x (Or.inl rfl)]
      rfl

/-- The fold underlying `pyMaxByVal` picks the first running maximum:
the list `acc :: xs` splits around the result, with every earlier entry
strictly smaller and every later entry no larger. -/
theorem foldl_pick_firstMax (xs : List (String × Nat)) (acc : String × Nat) :
    ∃ l₁ l₂,
      acc :: xs = l₁ ++ (xs.foldl pyStep acc) :: l₂ ∧
      (∀ q ∈ l₁, q.2 < (xs.foldl pyStep acc).2) ∧
      (∀ q ∈ l₂, q.2 ≤ (xs.foldl pyStep acc).2) := by
  induction xs generalizing acc with
  | nil => exact ⟨[], [], rfl, by simp, by simp⟩
  | cons y ys ih =>
    by_cases h : y.2 > acc.2
    · have hy : pyStep acc y = y := by simp [pyStep, h]
      obtain ⟨l₁, l₂, hsplit, hpre, hsuf⟩ := ih y
      have hyle : y.2 ≤ (ys.foldl pyStep y).2 := by
        cases l₁ with
        | nil =>
          simp only [List.nil_append] at hsplit
          obtain ⟨h1, _⟩ := List.cons_eq_cons.mp hsplit
          exact le_of_eq (congrArg Prod.snd h1)
        | cons z t =>
          obtain ⟨h1, _⟩ := List.cons_eq_cons.mp hsplit
          have hz2 := hpre z (List.mem_cons_self z t)
          rw [show y.2 = z.2 from congrArg Prod.snd h1]
          exact le_of_lt hz2
      refine ⟨acc :: l₁, l₂, ?_, ?_, ?_⟩
      · simp only [List.foldl_cons, hy, List.cons_append]
        rw [← hsplit]
      · intro q hq
        simp only [List.foldl_cons, hy]
        rcases List.mem_cons.mp hq with rfl | hq2
        · exact lt_of_lt_of_le h hyle
        · exact hpre q hq2
      · intro q hq
        simp only [List.foldl_cons, hy]
        exact hsuf q hq
    · have hy : pyStep acc y = acc := by simp [pyStep, h]
      have hyle : y.2 ≤ acc.2 := Nat.le_of_not_lt h
      obtain ⟨l₁, l₂, hsplit, hpre, hsuf⟩ := ih acc
      cases l₁ with
      | nil =>
        simp only [List.nil_append] at hsplit
        obtain ⟨h1, h2⟩ := List.cons_eq_cons.mp hsplit
        refine ⟨[], y :: l₂, ?_, by simp, ?_⟩
        · simp only [List.foldl_cons, hy, List.nil_append]
          rw [← h1, ← h2]
        · intro q hq
          simp only [List.foldl_cons, hy]
          rcases List.mem_cons.mp hq with rfl | hq2
          · rw [← h1]; exact hyle
          · exact hsuf q hq2
      | cons z t =>
        obtain ⟨h1, h2⟩ := List.cons_eq_cons.mp hsplit
        rw [List.append_eq] at h2
        have haccr : acc.2 < (ys.foldl pyStep acc).2 := by
          have hz2 := hpre z (List.mem_cons_self z t)
          rw [show acc.2 = z.2 from congrArg Prod.snd h1]
          exact hz2
        refine ⟨acc :: y :: t, l₂, ?_, ?_, ?_⟩
        · simp only [List.foldl_cons, hy, List.cons_append]
          rw [← h2]
        · intro q hq
          simp only [List.foldl_cons, hy]
          rcases List.mem_cons.mp hq with rfl | hq2
          · exact haccr
          · rcases List.mem_cons.mp hq2 with rfl | hq3
            · exact lt_of_le_of_lt hyle haccr
            · exact hpre q (List.mem_cons_of_mem z hq3)
        · intro q hq
          simp only [List.foldl_cons, hy]
          exact hsuf q hq

end FieldPurposeClassifier

end GenieOps

namespace GenieOps

/-- The classifier result as a first maximum of a score list: the list
splits around an entry carrying the result and its score, every earlier
entry scoring strictly less, every later entry scoring no more. -/
def IsFirstMax (ss : List (String × Nat)) (b : String) : Prop :=
  ∃ s l₁ l₂, ss = l₁ ++ (b, s) :: l₂ ∧
    (∀ q ∈ l₁, q.2 < s) ∧ (∀ q ∈ l₂, q.2 ≤ s)

namespace FieldPurposeClassifier

/-- `pyMaxByVal` returns a first maximum of its input list. -/
theorem pyMaxByVal_firstMax {l : List (String × Nat)} {r : String × Nat}
    (h : pyMaxByVal l = some r) :
    ∃ l₁ l₂, l = l₁ ++ r :: l₂ ∧
      (∀ q ∈ l₁, q.2 < r.2) ∧ (∀ q ∈ l₂, q.2 ≤ r.2) := by
  cases l with
  | nil => simp [pyMaxByVal] at h
  | cons x xs =>
    have hr : xs.foldl pyStep x = r := by
      simpa [pyMaxByVal] using h
    obtain ⟨l₁, l₂, hsplit, hpre, hsuf⟩ := foldl_pick_firstMax xs x
    rw [hr] at hsplit hpre hsuf
    exact ⟨l₁, l₂, hsplit, hpre, hsuf⟩

end FieldPurposeClassifier

/-- The field of the C7 counterexample: all classifier signal sits in the
id attribute. -/
def idOnlyField : FormField := { id := "email", type := "text" }

/-- C7 counterexample: `classify_fields` does not apply `classify` to the
concatenation name + label + placeholder + id.  For a field whose only
signal is the id "email", the claimed formula yields purpose "email"
while `classify_fields` (which omits the id) yields "other". -/
theorem classify_fields_id_counterexample :
    FieldPurposeClassifier.classify_fields [idOnlyField] ≠
      [{ idOnlyField with purpose := (FieldPurposeClassifier.classify
          (idOnlyField.name ++ " " ++ idOnlyField.label ++ " " ++
            idOnlyField.placeholder ++ " " ++ idOnlyField.id)
          idOnlyField.type) }] := by
  decide

/-- C7 (amended): `classify_fields` derives each field's purpose by
applying `classify` to the concatenated text name + label + placeholder
(the id is not part of the text); `classify` short-circuits on the
declared input kind (email→email, url→url, file→logo), otherwise scores
the keyword table case-insensitively against the text and returns the
purpose with the strictly highest score, ties broken by table iteration
order — formally, a first maximum of the score list — and returns
"other" exactly when every score is zero. -/
theorem classify_fields_concat_spec :
    (∀ fields : List FormField,
      FieldPurposeClassifier.classify_fields fields = fields.map (fun f =>
        { f with purpose := (FieldPurposeClassifier.classify
            (f.name ++ " " ++ f.label ++ " " ++ f.placeholder) f.type) })) ∧
    (∀ t : String, FieldPurposeClassifier.classify t "email" = "email") ∧
    (∀ t : String, FieldPurposeClassifier.classify t "url" = "url") ∧
    (∀ t : String, FieldPurposeClassifier.classify t "file" = "logo") ∧
    (∀ text ktype : String,
      ktype ≠ "email" → ktype ≠ "url" → ktype ≠ "file" →
      ((∀ q ∈ FieldPurposeClassifier.scoresOf (pyLower text), q.2 = 0) →
        FieldPurposeClassifier.classify text ktype = "other") ∧
      ((∃ q ∈ FieldPurposeClassifier.scoresOf (pyLower text), 0 < q.2) →
        IsFirstMax (FieldPurposeClassifier.scoresOf (pyLower text))
          (FieldPurposeClassifier.classify text ktype))) := by
  refine ⟨fun fields => rfl, fun t => rfl, ?_, ?_, ?_⟩
  · intro t
    simp [FieldPurposeClassifier.classify]
  · intro t
    simp [FieldPurposeClassifier.classify]
  · intro text ktype h1 h2 h3
    have hcl : FieldPurposeClassifier.classify text ktype =
        (if 0 < (FieldPurposeClassifier.scoresOf (pyLower text)).foldl
              (fun m q => Nat.max m q.2) 0 then
          match FieldPurposeClassifier.pyMaxByVal
              (FieldPurposeClassifier.scoresOf (pyLower text)) with
          | some b => b.1
          | Option.none => "other"
        else "other") := by
      unfold FieldPurposeClassifier.classify
      rw [if_neg h1, if_neg h2, if_neg h3]
    constructor
    · intro hz
      have hms : (FieldPurposeClassifier.scoresOf (pyLower text)).foldl
          (fun m q => Nat.max m q.2) 0 = 0 :=
        (FieldPurposeClassifier.foldl_natMax_eq_zero_iff _ 0).mpr ⟨rfl, hz⟩
      rw [hcl, hms]
      simp
    · rintro ⟨q0, hq0, hq0pos⟩
      have hpos : 0 < (FieldPurposeClassifier.scoresOf (pyLower text)).foldl
          (fun m q => Nat.max m q.2) 0 := by
        rcases Nat.eq_zero_or_pos ((FieldPurposeClassifier.scoresOf
            (pyLower text)).foldl (fun m q => Nat.max m q.2) 0) with h0 | h
        · have := ((FieldPurposeClassifier.foldl_natMax_eq_zero_iff _ 0).mp
            h0).2 q0 hq0
          omega
        · exact h
      rw [hcl, if_pos hpos]
      obtain ⟨x, xs, hsc⟩ : ∃ x xs,
          FieldPurposeClassifier.scoresOf (pyLower text) = x :: xs := ⟨_, _, rfl⟩
      rw [hsc]
      simp only [FieldPurposeClassifier.pyMaxByVal]
      obtain ⟨l₁, l₂, hsplit, hpre, hsuf⟩ :=
        FieldPurposeClassifier.pyMaxByVal_firstMax (l := x :: xs) rfl
      exact ⟨(xs.foldl FieldPurposeClassifier.pyStep x).2, l₁, l₂, hsplit,
        hpre, hsuf⟩

/-- C7 witness: the amended theorem applied at the concrete text "name"
with declared kind "text". -/
theorem classify_fields_concat_spec_witness :
    IsFirstMax (FieldPurposeClassifier.scoresOf (pyLower "name"))
      (FieldPurposeClassifier.classify "name" "text") :=
  (classify_fields_concat_spec.2.2.2.2 "name" "text" (by decide) (by decide)
      (by decide)).2 ⟨("name", 1), by decide, by decide⟩

end GenieOps

namespace GenieOps

/-! ## browser_pool.py — worker selection and command routing -/

/-- Pool state: per-worker liveness (`self.workers` probed with
`is_alive()`), the round-robin cursor `self.worker_index`, the
session-affinity dict `self.session_workers`, and the availability
flags. -/
structure PoolState where
  workersAlive : List Bool
  worker_index : Nat
  session_workers : List (String × Nat)
  is_running : Bool
  use_pool : Bool
  deriving DecidableEq, Repr

namespace BrowserWorkerPool

/-- Python dict lookup in `session_workers`. -/
def swLookup (m : List (String × Nat)) (k : String) : Option Nat :=
  (m.find? (fun e => e.1 = k)).map (fun e => e.2)

/-- Python `del session_workers[k]`. -/
def swErase (m : List (String × Nat)) (k : String) : List (String × Nat) :=
  m.filter (fun e => ¬ e.1 = k)

/-- Python dict assignment `session_workers[k] = v` (update in place,
else append). -/
def swInsert : List (String × Nat) → String → Nat → List (String × Nat)
  | [], k, v => [(k, v)]
  | (k2, v2) :: rest, k, v =>
      if k2 = k then (k, v) :: rest else (k2, v2) :: swInsert rest k v

/-- `alive_workers = [i for i, w in enumerate(self.workers) if w.is_alive()]`. -/
def aliveWorkers (ws : List Bool) : List Nat :=
  (List.range ws.length).filter (fun i => ws.getD i false)

/-- The round-robin tail of `_get_next_worker` (reached when no live
session assignment applies); `alive` is nonempty here, the `headD`/`getD`
defaults are never taken. -/
def roundRobin (st : PoolState) (session_id : Option String)
    (alive : List Nat) : Nat × PoolState :=
  let wi := if st.worker_index ∈ alive then st.worker_index else alive.headD 0
  let index := wi
  let current_pos := alive.indexOf index
  let next_pos := (current_pos + 1) % alive.length
  let st2 := { st with worker_index := alive.getD next_pos 0 }
  let st3 := match session_id with
    | some sid => { st2 with session_workers := swInsert st2.session_workers sid index }
    | Option.none => st2
  (index, st3)

/-- `BrowserWorkerPool._get_next_worker(session_id)`: raise when no
worker is alive; reuse a still-alive session assignment; otherwise drop a
dead assignment and pick round-robin among the alive workers, recording
the session assignment. -/
def getNextWorker (st : PoolState) (session_id : Option String) :
    Except String (Nat × PoolState) :=
  let alive := aliveWorkers st.workersAlive
  if alive = [] then .error "No alive workers available in pool"
  else
    match session_id with
    | some sid =>
      match swLookup st.session_workers sid with
      | some assigned =>
          if assigned ∈ alive then .ok (assigned, st)
          else .ok (roundRobin
            { st with session_workers := swErase st.session_workers sid }
            (some sid) alive)
      | Option.none => .ok (roundRobin st (some sid) alive)
    | Option.none => .ok (roundRobin st Option.none alive)

/-- The routing portion of `BrowserWorkerPool.execute_command`: the
running/dead-pool checks, then the worker choice.  The source calls
`self._get_next_worker()` without forwarding its own `session_id`
parameter (browser_pool.py:297), so the choice is round-robin for every
command. -/
def executeCommandRoute (st : PoolState) (session_id : Option String) :
    Except String (Nat × PoolState) :=
  if ¬ st.use_pool ∨ ¬ st.is_running then
    .error "Browser worker pool is not running"
  else
    let dead := (List.range st.workersAlive.length).filter
      (fun i => ¬ st.workersAlive.getD i false)
    if dead ≠ [] ∧ dead.length = st.workersAlive.length then
      .error "All browser workers are dead. Pool is unusable."
    else
      getNextWorker st Option.none

end BrowserWorkerPool

/-- C4 state: two alive workers, session "s" previously assigned to
worker 0, round-robin cursor standing at worker 1. -/
def poolStateC4 : PoolState :=
  { workersAlive := [true, true], worker_index := 1,
    session_workers := [("s", 0)], is_running := true, use_pool := true }

/-- C4: `execute_command` does not honour session affinity — with session
"s" pinned to the alive worker 0 it still routes to worker 1, because it
never forwards `session_id` to `_get_next_worker`; the selection helper
itself would have returned worker 0, and ignores `session_id` for every
state and session. -/
theorem execute_command_ignores_session :
    ((BrowserWorkerPool.executeCommandRoute poolStateC4 (some "s")).map
      Prod.fst = .ok 1) ∧
    ((BrowserWorkerPool.getNextWorker poolStateC4 (some "s")).map
      Prod.fst = .ok 0) ∧
    (∀ (st : PoolState) (sid : Option String),
      BrowserWorkerPool.executeCommandRoute st sid =
        BrowserWorkerPool.executeCommandRoute st Option.none) :=
  ⟨rfl, rfl, fun _ _ => rfl⟩

end GenieOps

namespace GenieOps

/-! ## browser.py — fill_form

The per-field behaviour of `BrowserAutomation.fill_form` is a chain of
awaited Playwright calls, each of which may raise.  `PExc` distinguishes
`PlaywrightTimeoutError` from other exceptions (the loop's two `except`
arms).  `ElemEnv` records, per selector, what the live page would answer
to each call; the fill logic itself is translated branch for branch. -/

/-- A Python exception: a Playwright timeout or any other exception. -/
inductive PExc : Type where
  | timeout (msg : String) : PExc
  | exc (msg : String) : PExc
  deriving DecidableEq, Repr

/-- One option of a select element: value attribute and visible text. -/
structure SelectOpt where
  value : String
  text : String
  deriving DecidableEq, Repr

/-- Substring test (Python `in` on strings). -/
def strContains (hay pat : String) : Bool := decide (pat.data <:+: hay.data)

/-- What the page answers for one selector during `fill_form`:
`count` for `locator.count()`, `tag`/`itype` for the tag-name and type
lookups, `visible` for the scroll-and-wait step (`some e` = it raises),
`filePath` for the local path after an optional URL download, with
`download` the download outcome, `fill` for `clear()`/`fill()` (`some e`
= it raises), `setFiles` for `set_input_files`, and `options` for a
select element. -/
structure ElemEnv where
  count : Nat := 1
  tag : String := "input"
  itype : String := ""
  visible : Option PExc := Option.none
  aiohttpAvailable : Bool := true
  download : Except String String := .ok ""
  filePath : String := ""
  fileExists : Bool := false
  fileExt : String := ""
  setFiles : Option PExc := Option.none
  fill : Option PExc := Option.none
  options : List SelectOpt := []

/-- Effect of one processed field on `(filled_count, errors)`: either the
branch reached `filled_count += 1`, or it reached `errors.append(...)`
and continued. -/
inductive FieldOutcome : Type where
  | filled : FieldOutcome
  | soft (msg : String) : FieldOutcome
  deriving DecidableEq, Repr

/-- `valid_extensions` of the file-upload branch. -/
def valid_extensions : List String :=
  [".jpg", ".jpeg", ".png", ".gif", ".svg", ".webp", ".bmp"]

/-- The body of the per-field `try` block of `fill_form`
(browser.py:301-435), for one selector/value pair: returns the branch
outcome, or the exception the body raises. -/
def fillFieldBody (selector value : String) (env : ElemEnv) :
    Except PExc FieldOutcome := do
  if env.count = 0 then
    return .soft ("Element not found: " ++ selector)
  let tag := env.tag
  let itype := env.itype
  if itype ≠ "hidden" then
    match env.visible with
    | some e => throw e
    | Option.none => pure ()
  if tag = "input" ∧ itype = "file" then
    if value.startsWith "http://" ∨ value.startsWith "https://" then
      if ¬ env.aiohttpAvailable then
        return .soft "Logo URL download requires aiohttp package"
      match env.download with
      | .error m =>
          return .soft ("Failed to download file from URL: " ++ m)
      | .ok _ => pure ()
    if env.fileExists then
      if valid_extensions.contains env.fileExt then
        match env.setFiles with
        | some e => throw e
        | Option.none => return .filled
      else
        return .soft ("Invalid file type: " ++ env.fileExt)
    else
      return .soft ("File not found: " ++ env.filePath)
  else if tag = "textarea" then
    match env.fill with
    | some e => throw e
    | Option.none => return .filled
  else if tag = "select" then
    if env.options.any (fun o => o.value = value) then return .filled
    else if env.options.any (fun o => o.text = value) then return .filled
    else throw (PExc.timeout "Timeout waiting for select_option")
  else if tag = "input" then
    match env.fill with
    | some e => throw e
    | Option.none => return .filled
  else
    match env.fill with
    | some e => throw e
    | Option.none => return .filled

/-- The record returned by `fill_form`. -/
structure FillResult where
  filled_count : Nat
  total_fields : Nat
  errors : List String
  deriving DecidableEq, Repr

/-- One iteration of the `fill_form` loop: skip falsy values, run the
body, translate the two `except` arms into appended error strings. -/
def fillStep (env : String → ElemEnv) (acc : Nat × List String)
    (m : String × String) : Nat × List String :=
  if m.2 = "" then acc
  else
    match fillFieldBody m.1 m.2 (env m.1) with
    | .ok .filled => (acc.1 + 1, acc.2)
    | .ok (.soft e) => (acc.1, acc.2 ++ [e])
    | .error (PExc.timeout _) =>
        (acc.1, acc.2 ++ ["Element not found: " ++ m.1])
    | .error (PExc.exc e) =>
        (acc.1, acc.2 ++ ["Error filling " ++ m.1 ++ ": " ++ e])

/-- `BrowserAutomation.fill_form(field_mappings)` (after the
browser-started precondition): iterate the mappings, collecting filled
count and errors, and return the result record. -/
def fill_form (mappings : List (String × String)) (env : String → ElemEnv) :
    FillResult :=
  let acc := mappings.foldl (fillStep env) (0, [])
  { filled_count := acc.1, total_fields := mappings.length, errors := acc.2 }

/-- The fill-step gate in `SubmissionWorkflow.submit_to_directory`
(submitter.py:248-255): the step returns an error outcome exactly when
no field was filled, otherwise the pipeline proceeds. -/
def submitAfterFill (r : FillResult) : Except String Unit :=
  if r.filled_count = 0 then .error "Failed to fill any form fields"
  else .ok ()

/-! ## browser_worker.py — the worker-side select cascade -/

/-- The select branch of `BrowserWorker._handle_fill_form`
(browser_worker.py:500-563): match by option value, then by label, then
scan all options for a case-insensitive exact or partial match; returns
the value of the selected option or the recorded error message. -/
def workerSelectFill (options : List SelectOpt) (selector value : String) :
    Except String String :=
  if options.any (fun o => o.value = value) then .ok value
  else if options.any (fun o => o.text = value) then
    .ok (((options.find? (fun o => o.text = value)).map
      (fun o => o.value)).getD value)
  else
    let value_lower := pyLower value
    match options.find? (fun o =>
        pyLower o.value = value_lower ∨ pyLower o.text = value_lower ∨
        strContains (pyLower o.text) value_lower ∨
        strContains value_lower (pyLower o.text)) with
    | some o => .ok o.value
    | Option.none =>
        .error ("Could not find matching option for select " ++ selector ++
          " with value " ++ value)

end GenieOps

namespace GenieOps

/-- The C5 select element: options SaaS and Marketing (value = text, as
for options without a value attribute). -/
def selectEnvC5 : ElemEnv :=
  { count := 1, tag := "select", itype := "",
    options := [⟨"SaaS", "SaaS"⟩, ⟨"Marketing", "Marketing"⟩] }

/-- C5: for a select with options ["SaaS","Marketing"] and mapping value
"Saas", the pipeline's fill step (`BrowserAutomation.fill_form`) records
an error and fills nothing — it only tries match-by-value and
match-by-label, with no case-insensitive partial fallback; the
case-insensitive partial cascade exists only in the worker-process
handler (`BrowserWorker._handle_fill_form`), which does select "SaaS". -/
theorem select_fill_case_mismatch :
    (fill_form [("#category", "Saas")] (fun _ => selectEnvC5) =
      { filled_count := 0, total_fields := 1,
        errors := ["Element not found: #category"] }) ∧
    (workerSelectFill [⟨"SaaS", "SaaS"⟩, ⟨"Marketing", "Marketing"⟩]
      "#category" "Saas" = .ok "SaaS") :=
  ⟨rfl, rfl⟩

/-- A processed field moves `(filled_count, errors)` by exactly one unit:
one fill or one recorded error, never an escaping exception. -/
theorem fillStep_shape (env : String → ElemEnv) (acc : Nat × List String)
    (m : String × String) (hm : ¬ m.2 = "") :
    ∃ d es, fillStep env acc m = (acc.1 + d, acc.2 ++ es) ∧
      d + es.length = 1 := by
  unfold fillStep
  rw [if_neg hm]
  cases hfb : fillFieldBody m.1 m.2 (env m.1) with
  | ok o =>
    cases o with
    | filled => exact ⟨1, [], by simp, by simp⟩
    | soft e => exact ⟨0, [e], by simp, by simp⟩
  | error e =>
    cases e with
    | timeout msg => exact ⟨0, ["Element not found: " ++ m.1], by simp, by simp⟩
    | exc msg =>
        exact ⟨0, ["Error filling " ++ m.1 ++ ": " ++ msg], by simp, by simp⟩

/-- Accumulated form of the fill loop: filled count plus error count
equals the number of non-skipped fields. -/
theorem fillLoop_spec (env : String → ElemEnv) :
    ∀ (ms : List (String × String)) (acc : Nat × List String),
      (ms.foldl (fillStep env) acc).1 + ((ms.foldl (fillStep env) acc).2).length =
        acc.1 + acc.2.length + (ms.filter (fun m => ¬ m.2 = "")).length := by
  intro ms
  induction ms with
  | nil => intro acc; simp
  | cons m ms ih =>
    intro acc
    by_cases hm : m.2 = ""
    · have hstep : fillStep env acc m = acc := by simp [fillStep, hm]
      rw [List.foldl_cons, hstep, ih, List.filter_cons]
      simp [hm]
    · obtain ⟨d, es, hstep, hsum⟩ := fillStep_shape env acc m hm
      rw [List.foldl_cons, hstep, ih, List.filter_cons]
      simp [hm, List.length_append]
      omega

/-- C9: the fill step never propagates a per-field failure: every
non-skipped field either increments the filled count or contributes
exactly one collected error message (so filled + errors = processed
fields, and total_fields is the full mapping size), and the workflow's
fill gate fails exactly when the filled count is zero. -/
theorem fill_form_collects_errors :
    ∀ (mappings : List (String × String)) (env : String → ElemEnv),
      (fill_form mappings env).total_fields = mappings.length ∧
      (fill_form mappings env).filled_count +
          (fill_form mappings env).errors.length =
        (mappings.filter (fun m => ¬ m.2 = "")).length ∧
      (submitAfterFill (fill_form mappings env) = .ok () ↔
        0 < (fill_form mappings env).filled_count) := by
  intro mappings env
  refine ⟨rfl, ?_, ?_⟩
  · have h := fillLoop_spec env mappings (0, [])
    simpa [fill_form] using h
  · unfold submitAfterFill
    by_cases h : (fill_form mappings env).filled_count = 0
    · rw [if_pos h]
      simp [h]
    · rw [if_neg h]
      simp [Nat.pos_of_ne_zero h]

end GenieOps

namespace GenieOps

/-! ## browser.py — extract_form_fields_dom

The extraction runs as JavaScript inside the page
(browser.py:803-943; the worker runs the same script,
browser_worker.py:1296-1412).  `PageDoc` models the document as the
script sees it: the elements matched by
`mainForm.querySelectorAll('input, textarea, select')` in document
order, the label lookup, and the submit-button queries. -/

/-- Tag of an element matched by the input/textarea/select query. -/
inductive TagKind : Type where
  | input : TagKind
  | textarea : TagKind
  | select : TagKind
  deriving DecidableEq, Repr

/-- `el.tagName.toLowerCase()`. -/
def TagKind.toStr : TagKind → String
  | .input => "input"
  | .textarea => "textarea"
  | .select => "select"

/-- One DOM element as read by the extraction script: `el.type` (empty
when absent), `el.name`, `el.id`, `el.placeholder`, the text of
`el.labels[0]` when present, the `required` attribute,
`aria-required`, and the option list for selects. -/
structure DomElement where
  tag : TagKind
  type : String := ""
  name : String := ""
  id : String := ""
  placeholder : String := ""
  labelsText : Option String := Option.none
  requiredAttr : Bool := false
  ariaRequired : Option String := Option.none
  options : List SelectOpt := []

/-- A submit-control candidate found by one of the script's queries:
the CSS selector string that matched it, its id, name, and
`textContent.trim() || value`. -/
structure BtnInfo where
  matchedSel : String := ""
  id : String := ""
  name : String := ""
  text : String := ""

/-- The document as the extraction script sees it. -/
structure PageDoc where
  hasForm : Bool := true
  formId : String := ""
  formName : String := ""
  elements : List DomElement := []
  labelFor : String → Option String := fun _ => Option.none
  submitBtn : Option BtnInfo := Option.none
  anyButton : Option BtnInfo := Option.none

/-- Submit-control descriptor of a form structure. -/
structure SubmitButton where
  selector : String
  text : String
  deriving DecidableEq, Repr

/-- A form structure as the analysis layers exchange it: fields, submit
control, container selector, optional error marker. -/
structure FormStructure where
  fields : List FormField := []
  submit_button : Option SubmitButton := Option.none
  form_selector : String := "form"
  error : Option String := Option.none
  deriving DecidableEq, Repr

/-- Remainder of `s` after the first occurrence of `pat`, if any. -/
def afterFirst (s pat : String) : Option String :=
  match s.splitOn pat with
  | [] => Option.none
  | [_] => Option.none
  | _ :: rest => some (String.intercalate pat rest)

/-- JS `/contact.*email/` as a containment test: within one
newline-free segment, "contact" followed by "email" (the `.` of the gap
matches no newline).  Redundant in context because the alternation
tests "email" and "mail" first, but translated nonetheless. -/
def containsContactThenEmail (s : String) : Bool :=
  (s.splitOn "\n").any (fun seg =>
    match afterFirst seg "contact" with
    | some rest => strContains rest "email"
    | Option.none => false)

/-- The script's purpose inference over the lowercased concatenated
field text: first alternation that matches anywhere wins. -/
def jsPurpose (t : String) : String :=
  if ["name", "title", "product", "company", "business"].any
      (fun k => strContains t k) then "name"
  else if ["url", "website", "site", "link", "homepage", "domain"].any
      (fun k => strContains t k) then "url"
  else if strContains t "email" || strContains t "mail" ||
      containsContactThenEmail t then "email"
  else if ["description", "desc", "about", "details", "info", "summary"].any
      (fun k => strContains t k) then "description"
  else if ["category", "tag", "tags", "type", "industry"].any
      (fun k => strContains t k) then "category"
  else if ["logo", "image", "picture", "photo", "icon"].any
      (fun k => strContains t k) then "logo"
  else "other"

/-- The per-element body of the extraction script (after the hidden
skip): derive name, label, selector, required flag, purpose and options,
and build the pushed field record (`idx` is the element's position among
all matched elements, hidden ones included). -/
def extractField (doc : PageDoc) (idx : Nat) (el : DomElement) : FormField :=
  let tagName := el.tag.toStr
  let etype := el.type
  let name := if ¬ el.name = "" then el.name else el.id
  let id := el.id
  let placeholder := el.placeholder
  let label := el.labelsText.getD ""
  let labelText1 :=
    if label = "" ∧ ¬ id = "" then (doc.labelFor id).getD label else label
  let labelText :=
    if labelText1 = "" ∧ ¬ name = "" then (doc.labelFor name).getD labelText1
    else labelText1
  let selector :=
    if ¬ id = "" then "#" ++ id
    else if ¬ name = "" then "[name=\x22" ++ name ++ "\x22]"
    else tagName ++ "[type=\x22" ++ etype ++ "\x22]:nth-of-type(" ++
      toString (idx + 1) ++ ")"
  let required := el.requiredAttr || el.ariaRequired = some "true"
  let fieldText := pyLower (name ++ " " ++ id ++ " " ++ labelText ++ " " ++
    placeholder)
  let purpose := jsPurpose fieldText
  let options :=
    if el.tag = TagKind.select then
      el.options.map (fun o => if ¬ o.text = "" then o.text else o.value)
    else []
  { selector := selector,
    type := if ¬ etype = "" then etype else tagName,
    name := if ¬ name = "" then name else id,
    id := "",
    label := labelText,
    placeholder := placeholder,
    required := required,
    purpose := purpose,
    options := options }

/-- The submit-button search of the script: the first submit-selector
match, else any button, else none; prefer an id selector, then a name
selector, then the query string itself. -/
def jsSubmitButton (doc : PageDoc) : Option SubmitButton :=
  match doc.submitBtn with
  | some b =>
      some { selector :=
               if ¬ b.id = "" then "#" ++ b.id
               else if ¬ b.name = "" then "[name=\x22" ++ b.name ++ "\x22]"
               else b.matchedSel,
             text := b.text }
  | Option.none =>
      match doc.anyButton with
      | some b =>
          some { selector := if ¬ b.id = "" then "#" ++ b.id
                             else "button:first-of-type",
                 text := b.text }
      | Option.none => Option.none

/-- The evaluated extraction script: skip `el.type === 'hidden'`
elements, build a field per remaining element, locate the submit
control, and derive the form selector. -/
def jsExtractFormFields (doc : PageDoc) : FormStructure :=
  let fields := (doc.elements.enum.filter
    (fun p => ¬ p.2.type = "hidden")).map (fun p => extractField doc p.1 p.2)
  let formSelector :=
    if doc.hasForm then
      if ¬ doc.formId = "" then "#" ++ doc.formId
      else if ¬ doc.formName = "" then "form[name=\x22" ++ doc.formName ++ "\x22]"
      else "form"
    else "body"
  { fields := fields, submit_button := jsSubmitButton doc,
    form_selector := formSelector }

/-- `BrowserAutomation.extract_form_fields_dom`: on any raised exception
the wrapper returns an empty degraded structure with an error string;
otherwise the script's result. -/
def extract_form_fields_dom (doc : PageDoc) (raised : Option String) :
    FormStructure :=
  match raised with
  | some m =>
      { fields := [], submit_button := Option.none, form_selector := "form",
        error := some ("DOM extraction failed: " ++ m) }
  | Option.none => jsExtractFormFields doc

/-- C8: DOM extraction never returns a field whose input kind is
"hidden": hidden elements are skipped, and a non-hidden element's
recorded type is either its own (non-hidden) type or its tag name. -/
theorem dom_extraction_excludes_hidden :
    ∀ (doc : PageDoc) (raised : Option String),
      ∀ f ∈ (extract_form_fields_dom doc raised).fields,
        ¬ f.type = "hidden" := by
  intro doc raised f hf
  cases raised with
  | some m => simp [extract_form_fields_dom] at hf
  | none =>
    simp only [extract_form_fields_dom, jsExtractFormFields,
      List.mem_map] at hf
    obtain ⟨p, hp, rfl⟩ := hf
    have hph := (List.mem_filter.mp hp).2
    have hnothidden : ¬ p.2.type = "hidden" := by
      simpa using hph
    simp only [extractField]
    by_cases ht : p.2.type = ""
    · rw [if_neg (by simp [ht])]
      cases p.2.tag <;> simp [TagKind.toStr]
    · rw [if_pos ht]
      exact hnothidden

end GenieOps

namespace GenieOps

/-! ## form_reader.py / submitter.py — analysis strategies and policy -/

/-- A form-analysis strategy invocation: DOM extraction or the
LLM-backed `analyze_form`. -/
inductive Strategy : Type where
  | dom : Strategy
  | llm : Strategy
  deriving DecidableEq, Repr

/-- `FormReader._is_complex_form`: more than 8 fields, more than 30% of
fields with purpose "other" (the float comparison `unclear/len > 0.3`
taken exactly, as `10 * unclear > 3 * len`), or an unusual input
type. -/
def is_complex_form (form_data : FormStructure) : Bool :=
  let fields := form_data.fields
  if fields.length > 8 then true
  else
    let unclear_count := (fields.filter (fun f => f.purpose = "other")).length
    if 10 * unclear_count > 3 * fields.length then true
    else
      let unusual_types := ["color", "range", "date", "time",
        "datetime-local", "month", "week"]
      fields.any (fun f => unusual_types.contains f.type)

/-- `FormReader._merge_results`: start from the DOM result; take the LLM
purpose only where the DOM purpose is "other" and the LLM one is not
(the LLM dict is built last-entry-wins, hence the reversed lookup);
adopt the LLM submit button only when the DOM found none. -/
def merge_results (dom_result llm_result : FormStructure) : FormStructure :=
  let fields := dom_result.fields.map (fun f =>
    match llm_result.fields.reverse.find? (fun g => g.selector = f.selector) with
    | some g =>
        if f.purpose = "other" ∧ ¬ g.purpose = "other" then
          { f with purpose := g.purpose }
        else f
    | Option.none => f)
  let sb :=
    if dom_result.submit_button.isNone ∧ llm_result.submit_button.isSome then
      llm_result.submit_button
    else dom_result.submit_button
  { dom_result with fields := fields, submit_button := sb }

/-- The DOM result with rule-based classification applied (step 2 of the
hybrid policy). -/
def classifiedDom (dom_result : FormStructure) : FormStructure :=
  { dom_result with
    fields := FieldPurposeClassifier.classify_fields dom_result.fields }

/-- `FormReader.analyze_form_hybrid`: DOM extraction first (`dom_result`
is its outcome — the empty structure when extraction raised); return it
when it has no fields; classify the fields rule-based; stop unless
`use_llm` and a client are available and the form is complex; else call
`analyze_form` (`llmOutcome`: `.error` = the call raised) and keep the
classified DOM result on failure or an error result, merging
otherwise.  Also returns the strategy invocations in order. -/
def analyze_form_hybrid (dom_result : FormStructure)
    (use_llm clientAvailable : Bool)
    (llmOutcome : Except String FormStructure) :
    FormStructure × List Strategy :=
  let events := [Strategy.dom]
  if dom_result.fields.isEmpty then (dom_result, events)
  else
    let domc := classifiedDom dom_result
    if ¬ use_llm ∨ ¬ clientAvailable then (domc, events)
    else if ¬ is_complex_form domc then (domc, events)
    else
      let events := events ++ [Strategy.llm]
      match llmOutcome with
      | .error _ => (domc, events)
      | .ok llm =>
          if llm.error.isSome then (domc, events)
          else (merge_results domc llm, events)

/-- Result of the form-analysis step of
`SubmissionWorkflow.submit_to_directory` (submitter.py:89-140):
the chosen structure, the `using_dom_extraction` flag, whether the
zero-fields error return was taken, and the strategy invocations in
order. -/
structure AnalysisStep where
  result : FormStructure
  using_dom : Bool
  failed : Bool
  events : List Strategy
  deriving DecidableEq, Repr

/-- The workflow's analysis step: with no FormReader, DOM extraction
only; otherwise `analyze_form` (the LLM strategy) runs FIRST and DOM
extraction only as fallback when it errors or returns no fields (both
fallback sub-branches use the DOM structure); finally, on zero fields, a
single retry of DOM extraction (`dom2`), whose failure is the step's
error return. -/
def workflowAnalyze (readerResult : Option FormStructure)
    (dom1 dom2 : FormStructure) : AnalysisStep :=
  let (fs, usingDom, events) :=
    match readerResult with
    | Option.none => (dom1, true, [Strategy.dom])
    | some r =>
        if r.error.isSome ∨ r.fields.isEmpty then
          (dom1, true, [Strategy.llm, Strategy.dom])
        else (r, false, [Strategy.llm])
  if fs.fields.length = 0 then
    if dom2.fields.length > 0 then
      { result := dom2, using_dom := true, failed := false,
        events := events ++ [Strategy.dom] }
    else
      { result := fs, using_dom := usingDom, failed := true,
        events := events ++ [Strategy.dom] }
  else
    { result := fs, using_dom := usingDom, failed := false, events := events }

/-- A successful LLM analysis of a simple one-field form. -/
def llmSimpleResult : FormStructure :=
  { fields := [{ selector := "#name", type := "text", name := "name",
                 purpose := "name" }] }

/-- C3 counterexample: on a run where the FormReader is available and
`analyze_form` succeeds on a simple form, the workflow's analysis step
invokes only the LLM strategy — DOM extraction does not run first (it
does not run at all), and the LLM ran although no result classifies the
form as complex. -/
theorem workflow_llm_first_counterexample :
    (workflowAnalyze (some llmSimpleResult) {} {}).events = [Strategy.llm] ∧
    ¬ ((workflowAnalyze (some llmSimpleResult) {} {}).events.head? =
        some Strategy.dom) ∧
    is_complex_form {} = false ∧
    is_complex_form llmSimpleResult = false := by
  decide

end GenieOps

namespace GenieOps

/-- C3 (amended): whenever a FormReader is available the workflow's
analysis step invokes the LLM strategy FIRST, and runs DOM extraction
only as a fallback (when the LLM result has an error or no fields, the
step uses a DOM result and sets using_dom); without a FormReader only
DOM extraction runs.  The claimed DOM-first policy — DOM first, LLM only
for complex forms, DOM kept on LLM failure — holds of
`FormReader.analyze_form_hybrid`, which no code path of the repository
invokes. -/
theorem workflow_analysis_order :
    (∀ (r d1 d2 : FormStructure),
      (workflowAnalyze (some r) d1 d2).events.head? = some Strategy.llm) ∧
    (∀ (d1 d2 : FormStructure),
      (workflowAnalyze Option.none d1 d2).events.head? = some Strategy.dom ∧
      Strategy.llm ∉ (workflowAnalyze Option.none d1 d2).events) ∧
    (∀ (r d1 d2 : FormStructure), r.error.isSome = true ∨ r.fields = [] →
      (workflowAnalyze (some r) d1 d2).using_dom = true ∧
      ((workflowAnalyze (some r) d1 d2).result = d1 ∨
        (workflowAnalyze (some r) d1 d2).result = d2)) ∧
    (∀ (dom : FormStructure) (use_llm client : Bool)
        (llm : Except String FormStructure),
      (analyze_form_hybrid dom use_llm client llm).2.head? =
        some Strategy.dom ∧
      (Strategy.llm ∈ (analyze_form_hybrid dom use_llm client llm).2 →
        use_llm = true ∧ client = true ∧
        is_complex_form (classifiedDom dom) = true) ∧
      (∀ msg, llm = .error msg →
        ((analyze_form_hybrid dom use_llm client llm).1 = dom ∨
          (analyze_form_hybrid dom use_llm client llm).1 =
            classifiedDom dom)) ∧
      (∀ l, llm = .ok l → l.error.isSome = true →
        ((analyze_form_hybrid dom use_llm client llm).1 = dom ∨
          (analyze_form_hybrid dom use_llm client llm).1 =
            classifiedDom dom))) := by
  refine ⟨?_, ?_, ?_, ?_⟩
  · intro r d1 d2
    by_cases h1 : r.error.isSome = true ∨ r.fields = []
    · by_cases h2 : d1.fields = []
      · by_cases h3 : 0 < d2.fields.length
        · simp [workflowAnalyze, h1, h2, h3]
        · simp [workflowAnalyze, h1, h2, h3]
      · simp [workflowAnalyze, h1, h2]
    · obtain ⟨hA, hB⟩ := not_or.mp h1
      simp [workflowAnalyze, hA, hB]
  · intro d1 d2
    by_cases h2 : d1.fields = []
    · by_cases h3 : 0 < d2.fields.length
      · constructor <;> simp [workflowAnalyze, h2, h3]
      · constructor <;> simp [workflowAnalyze, h2, h3]
    · constructor <;> simp [workflowAnalyze, h2]
  · intro r d1 d2 h1
    by_cases h2 : d1.fields = []
    · by_cases h3 : 0 < d2.fields.length
      · constructor <;> simp [workflowAnalyze, h1, h2, h3]
      · constructor <;> simp [workflowAnalyze, h1, h2, h3]
    · constructor <;> simp [workflowAnalyze, h1, h2]
  · intro dom use_llm client llm
    by_cases hE : dom.fields.isEmpty
    · refine ⟨by simp [analyze_form_hybrid, hE], ?_, ?_, ?_⟩
      · intro hmem
        simp [analyze_form_hybrid, hE] at hmem
      · intro msg _
        left
        simp [analyze_form_hybrid, hE]
      · intro l _ _
        left
        simp [analyze_form_hybrid, hE]
    · cases use_llm with
      | false =>
        refine ⟨by simp [analyze_form_hybrid, hE], ?_, ?_, ?_⟩
        · intro hmem
          simp [analyze_form_hybrid, hE] at hmem
        · intro msg _
          right
          simp [analyze_form_hybrid, hE]
        · intro l _ _
          right
          simp [analyze_form_hybrid, hE]
      | true =>
        cases client with
        | false =>
          refine ⟨by simp [analyze_form_hybrid, hE], ?_, ?_, ?_⟩
          · intro hmem
            simp [analyze_form_hybrid, hE] at hmem
          · intro msg _
            right
            simp [analyze_form_hybrid, hE]
          · intro l _ _
            right
            simp [analyze_form_hybrid, hE]
        | true =>
          by_cases hCx : is_complex_form (classifiedDom dom) = true
          · cases llm with
            | error msg =>
              refine ⟨by simp [analyze_form_hybrid, hE, hCx], ?_, ?_, ?_⟩
              · intro _
                exact ⟨rfl, rfl, hCx⟩
              · intro m _
                right
                simp [analyze_form_hybrid, hE, hCx]
              · intro l hl
                cases hl
            | ok l =>
              by_cases hLE : l.error.isSome = true
              · refine ⟨by simp [analyze_form_hybrid, hE, hCx, hLE],
                  ?_, ?_, ?_⟩
                · intro _
                  exact ⟨rfl, rfl, hCx⟩
                · intro m hm
                  cases hm
                · intro l2 hl2 _
                  cases hl2
                  right
                  simp [analyze_form_hybrid, hE, hCx, hLE]
              · refine ⟨by simp [analyze_form_hybrid, hE, hCx, hLE],
                  ?_, ?_, ?_⟩
                · intro _
                  exact ⟨rfl, rfl, hCx⟩
                · intro m hm
                  cases hm
                · intro l2 hl2 hl2e
                  cases hl2
                  exact absurd hl2e hLE
          · have hCx2 : is_complex_form (classifiedDom dom) = false :=
              Bool.eq_false_iff.mpr hCx
            refine ⟨by simp [analyze_form_hybrid, hE, hCx2], ?_, ?_, ?_⟩
            · intro hmem
              simp [analyze_form_hybrid, hE, hCx2] at hmem
            · intro msg _
              right
              simp [analyze_form_hybrid, hE, hCx2]
            · intro l _ _
              right
              simp [analyze_form_hybrid, hE, hCx2]

/-- An analysis result carrying an error marker, as `analyze_form`
returns it on any backend or parse failure. -/
def llmErrorResult : FormStructure :=
  { error := some "Failed to parse LLM response" }

/-- C3 witness: the amended theorem applied at a run whose LLM analysis
returned an error result — the step falls back to a DOM structure — and
at a hybrid call whose LLM invocation raised. -/
theorem workflow_analysis_order_witness :
    ((workflowAnalyze (some llmErrorResult) llmSimpleResult {}).using_dom =
        true ∧
      ((workflowAnalyze (some llmErrorResult) llmSimpleResult {}).result =
          llmSimpleResult ∨
        (workflowAnalyze (some llmErrorResult) llmSimpleResult {}).result =
          {})) ∧
    ((analyze_form_hybrid llmSimpleResult true true
          (.error "boom")).1 = llmSimpleResult ∨
      (analyze_form_hybrid llmSimpleResult true true
          (.error "boom")).1 = classifiedDom llmSimpleResult) :=
  ⟨workflow_analysis_order.2.2.1 llmErrorResult llmSimpleResult {}
      (Or.inl (by decide)),
    (workflow_analysis_order.2.2.2 llmSimpleResult true true
        (.error "boom")).2.2.1 "boom" rfl⟩

end GenieOps

namespace GenieOps

/-! ## manager.py — per-submission status/retry state machine

The three operations the claims quantify over, `_process_submission`,
`process_failed_submissions_auto_retry` (its per-submission decision) and
`stop_auto_retry`, each read one submission record and write back status
and retry count; they are translated below as functions on the record.
`updated_at` timing, task slots and task liveness enter the auto-retry
decision as booleans. -/

/-- The submission-record fields the manager's state machine touches. -/
structure Submission where
  status : String
  retry_count : Nat
  deriving DecidableEq, Repr

/-- Outcome of one `workflow.submit_to_directory` run, as
`_process_submission` branches on it: the result status, the
fields_filled count for the "pending" status, or a raised exception. -/
inductive PipelineOutcome : Type where
  | success : PipelineOutcome
  | error (msg : String) : PipelineOutcome
  | captchaRequired : PipelineOutcome
  | pendingOutcome (fields_filled : Nat) : PipelineOutcome
  | unknown (status : String) : PipelineOutcome
  | exn (msg : String) : PipelineOutcome
  deriving DecidableEq, Repr

/-- `WorkflowManager._process_submission` (manager.py:187-476), reduced
to its effect on (status, retry_count): skip non-pending records; mark
over-budget records failed; then branch on the pipeline outcome.  The
missing-SaaS / missing-directory early failures behave like
`.error`/`.unknown` (status := "failed", count kept) and are subsumed by
those cases.  Comparisons involving `max_retries - 1` are taken over ℤ,
as in Python. -/
def processSubmission (max_retries : Nat) (s : Submission)
    (out : PipelineOutcome) : Submission :=
  if ¬ s.status = "pending" then s
  else if s.retry_count ≥ max_retries then { s with status := "failed" }
  else
    match out with
    | .success => { s with status := "submitted" }
    | .error _ =>
        if (s.retry_count : Int) < (max_retries : Int) - 1 ∧
            ¬ s.status.startsWith "auto_retry_failed_" then
          { s with status := "failed" }
        else if s.status.startsWith "auto_retry_failed_" then
          { s with status := s.status }
        else
          { s with status := "failed" }
    | .captchaRequired => { s with status := "failed" }
    | .pendingOutcome n =>
        if n > 0 then { s with status := "submitted" }
        else { s with status := "failed" }
    | .unknown _ => { s with status := "failed" }
    | .exn _ =>
        if (s.retry_count : Int) < (max_retries : Int) - 1 then
          { status := "pending", retry_count := s.retry_count + 1 }
        else { s with status := "failed" }

/-- The per-submission decision of
`process_failed_submissions_auto_retry` (manager.py:516-555): the record
was fetched with status "failed"; skip when a live task exists, when the
status carries the suppression prefix, when fewer than 30 seconds have
passed, when the retry budget is spent, or when no slot is free;
otherwise reset to "pending", increment retry_count, and start a task
(the returned flag). -/
def autoRetryAct (max_retries : Nat) (s : Submission)
    (hasLiveTask elapsed30s slotAvailable : Bool) : Submission × Bool :=
  if ¬ s.status = "failed" then (s, false)
  else if hasLiveTask then (s, false)
  else if s.status.startsWith "auto_retry_failed_" then (s, false)
  else if ¬ elapsed30s then (s, false)
  else if s.retry_count ≥ max_retries then (s, false)
  else if ¬ slotAvailable then (s, false)
  else ({ status := "pending", retry_count := s.retry_count + 1 }, true)

/-- `WorkflowManager.stop_auto_retry` (manager.py:560-606): bump
retry_count, hard-capped at 5; at 5 the record becomes permanently
"failed", below it the suppression status carries the counter. -/
def stop_auto_retry (s : Submission) : Submission :=
  let current_retry_count := s.retry_count
  let new_retry_count := min (current_retry_count + 1) 5
  if new_retry_count ≥ 5 then
    { status := "failed", retry_count := new_retry_count }
  else
    { status := "auto_retry_failed_" ++ toString new_retry_count,
      retry_count := new_retry_count }

/-- One Workflow Manager operation on a submission record. -/
inductive MgrStep (max_retries : Nat) : Submission → Submission → Prop where
  | process (s : Submission) (out : PipelineOutcome) :
      MgrStep max_retries s (processSubmission max_retries s out)
  | autoRetry (s : Submission) (live elapsed slot : Bool) :
      MgrStep max_retries s (autoRetryAct max_retries s live elapsed slot).1
  | stopRetry (s : Submission) :
      MgrStep max_retries s (stop_auto_retry s)

/-- A submission record as created: status "pending", retry_count 0. -/
def initialSubmission : Submission := { status := "pending", retry_count := 0 }

/-- States a submission record can reach under manager operations. -/
def MgrReachable (max_retries : Nat) : Submission → Prop :=
  Relation.ReflTransGen (MgrStep max_retries) initialSubmission

/-- The automatic operations only (no operator `stop_auto_retry`). -/
inductive AutoStep (max_retries : Nat) : Submission → Submission → Prop where
  | process (s : Submission) (out : PipelineOutcome) :
      AutoStep max_retries s (processSubmission max_retries s out)
  | autoRetry (s : Submission) (live elapsed slot : Bool) :
      AutoStep max_retries s (autoRetryAct max_retries s live elapsed slot).1

/-- States reachable through automatic operations alone. -/
def AutoReachable (max_retries : Nat) : Submission → Prop :=
  Relation.ReflTransGen (AutoStep max_retries) initialSubmission

/-- `_process_submission` leaves retry_count unchanged, except for the
exception path, which increments it under its budget guard. -/
theorem processSubmission_count (M : Nat) (s : Submission)
    (out : PipelineOutcome) :
    (processSubmission M s out).retry_count = s.retry_count ∨
    ((processSubmission M s out).retry_count = s.retry_count + 1 ∧
      (s.retry_count : Int) < (M : Int) - 1) := by
  unfold processSubmission
  split
  · left; rfl
  · split
    · left; rfl
    · split
      · left; rfl
      · split
        · left; rfl
        · split <;> (left; rfl)
      · left; rfl
      · split <;> (left; rfl)
      · left; rfl
      · split
        · rename_i h3
          right
          exact ⟨rfl, h3⟩
        · left; rfl

/-- The auto-retry decision leaves retry_count unchanged or, under its
budget guard, increments it. -/
theorem autoRetryAct_count (M : Nat) (s : Submission)
    (live elapsed slot : Bool) :
    (autoRetryAct M s live elapsed slot).1.retry_count = s.retry_count ∨
    ((autoRetryAct M s live elapsed slot).1.retry_count = s.retry_count + 1 ∧
      s.retry_count < M) := by
  unfold autoRetryAct
  split
  · left; rfl
  · split
    · left; rfl
    · split
      · left; rfl
      · split
        · left; rfl
        · split
          · left; rfl
          · split
            · left; rfl
            · right
              refine ⟨rfl, ?_⟩
              omega

/-- `stop_auto_retry` sets retry_count to `min (retry_count + 1) 5`. -/
theorem stop_auto_retry_count (s : Submission) :
    (stop_auto_retry s).retry_count = min (s.retry_count + 1) 5 := by
  unfold stop_auto_retry
  dsimp only
  split <;> rfl

/-- Any manager operation keeps retry_count at most 5 when max_retries
is at most 5. -/
theorem mgrStep_le_five {M : Nat} (hM : M ≤ 5) {s s' : Submission}
    (h : MgrStep M s s') (hs : s.retry_count ≤ 5) : s'.retry_count ≤ 5 := by
  cases h with
  | process out =>
      rcases processSubmission_count M s out with h | ⟨h, hlt⟩ <;> omega
  | autoRetry live elapsed slot =>
      rcases autoRetryAct_count M s live elapsed slot with h | ⟨h, hlt⟩ <;>
        omega
  | stopRetry =>
      rw [stop_auto_retry_count]
      omega

/-- Reachable records carry retry_count at most 5 when max_retries is at
most 5. -/
theorem mgrReachable_le_five {M : Nat} (hM : M ≤ 5) {s : Submission}
    (h : MgrReachable M s) : s.retry_count ≤ 5 := by
  induction h with
  | refl => simp [initialSubmission]
  | tail hr hstep ih => exact mgrStep_le_five hM hstep ih

/-- An automatic operation keeps retry_count within the configured
maximum: both increments are guarded by the retry budget. -/
theorem autoStep_le_max {M : Nat} {s s' : Submission}
    (h : AutoStep M s s') (hs : s.retry_count ≤ M) : s'.retry_count ≤ M := by
  cases h with
  | process out =>
      rcases processSubmission_count M s out with h | ⟨h, hlt⟩ <;> omega
  | autoRetry live elapsed slot =>
      rcases autoRetryAct_count M s live elapsed slot with h | ⟨h, hlt⟩ <;>
        omega

/-- C2 (amended): with max_retries ≤ 5 (the default is 3), retry_count
never decreases across any manager operation on a reachable record and
never exceeds 5; under the automatic operations alone (processing and
auto-retry requeue, without operator stop_auto_retry) it never exceeds
max_retries.  The original bound — never exceeding max_retries before
the status becomes permanently "failed" — fails through stop_auto_retry,
whose counter is capped at the hardcoded 5 instead of max_retries. -/
theorem retry_count_monotone_bounded :
    (∀ (M : Nat) (s s' : Submission), M ≤ 5 → MgrReachable M s →
      MgrStep M s s' →
      s.retry_count ≤ s'.retry_count ∧ s'.retry_count ≤ 5) ∧
    (∀ (M : Nat) (s : Submission), AutoReachable M s →
      s.retry_count ≤ M) := by
  constructor
  · intro M s s' hM hre hstep
    have hs5 : s.retry_count ≤ 5 := mgrReachable_le_five hM hre
    refine ⟨?_, mgrStep_le_five hM hstep hs5⟩
    cases hstep with
    | process out =>
        rcases processSubmission_count M s out with h | ⟨h, hlt⟩ <;> omega
    | autoRetry live elapsed slot =>
        rcases autoRetryAct_count M s live elapsed slot with h | ⟨h, hlt⟩ <;>
          omega
    | stopRetry =>
        rw [stop_auto_retry_count]
        omega
  · intro M s hre
    induction hre with
    | refl => simp [initialSubmission]
    | tail hr hstep ih => exact autoStep_le_max hstep ih

/-- C2 witness: the monotonicity-and-bound applied to the very first
stop_auto_retry on a fresh record with max_retries = 3, and the
automatic bound at the initial record. -/
theorem retry_count_monotone_bounded_witness :
    (initialSubmission.retry_count ≤
        (stop_auto_retry initialSubmission).retry_count ∧
      (stop_auto_retry initialSubmission).retry_count ≤ 5) ∧
    initialSubmission.retry_count ≤ 3 :=
  ⟨retry_count_monotone_bounded.1 3 initialSubmission
      (stop_auto_retry initialSubmission) (by decide)
      Relation.ReflTransGen.refl (MgrStep.stopRetry initialSubmission),
    retry_count_monotone_bounded.2 3 initialSubmission
      Relation.ReflTransGen.refl⟩

/-- Four consecutive stop_auto_retry calls on a fresh record. -/
def stoppedFour : Submission :=
  stop_auto_retry (stop_auto_retry (stop_auto_retry
    (stop_auto_retry initialSubmission)))

/-- C2 counterexample: with the default max_retries = 3, four operator
stop_auto_retry calls drive retry_count to 4 > 3 while the status is
"auto_retry_failed_4" — not the permanent "failed" — so retry_count
exceeds the configured maximum before the status becomes permanently
"failed". -/
theorem retry_count_exceeds_max_counterexample :
    MgrReachable 3 stoppedFour ∧
    stoppedFour.retry_count = 4 ∧
    3 < stoppedFour.retry_count ∧
    ¬ stoppedFour.status = "failed" ∧
    stoppedFour.status = "auto_retry_failed_4" := by
  refine ⟨?_, by decide, by decide, by decide, by decide⟩
  exact Relation.ReflTransGen.tail (Relation.ReflTransGen.tail
    (Relation.ReflTransGen.tail (Relation.ReflTransGen.tail
      Relation.ReflTransGen.refl (MgrStep.stopRetry _))
      (MgrStep.stopRetry _)) (MgrStep.stopRetry _)) (MgrStep.stopRetry _)

/-- C1: a pipeline run ending in captcha_required is recorded with plain
status "failed" and unchanged retry_count — not a terminal state — and
the very next auto-retry poll (no live task, 30 seconds elapsed, slot
free, default max_retries 3) requeues it to "pending", increments
retry_count, and starts a new pipeline task. -/
theorem captcha_failed_then_autoretried :
    processSubmission 3 initialSubmission PipelineOutcome.captchaRequired =
      { status := "failed", retry_count := 0 } ∧
    autoRetryAct 3 { status := "failed", retry_count := 0 }
        false true true =
      ({ status := "pending", retry_count := 1 }, true) := by
  decide

end GenieOps

namespace GenieOps

/-! ## manager.py — scheduler task tracking

`processing_tasks` maps a submission id to the most recently started
asyncio task for it.  The events of the event loop relevant to the
at-most-one-live-task discipline are: a poll starting a task under the
guard `sid not in processing_tasks or processing_tasks[sid].done()`
(manager.py:177 and 517-519), a task completing, and a completed task's
done-callback running `_cleanup_task(sid)` (manager.py:608-613), which
deletes whatever `processing_tasks[sid]` currently holds. -/

/-- One asyncio task ever created for a submission: its identity, the
submission id it processes, whether the coroutine has finished, and
whether its done-callback has run. -/
structure TaskEntry where
  uid : Nat
  sid : Nat
  done : Bool
  cbRan : Bool
  deriving DecidableEq, Repr

/-- Scheduler state: all tasks created so far, the `processing_tasks`
dict as (sid, uid) pairs, and the next task identity. -/
structure SchedState where
  tasks : List TaskEntry
  tracked : List (Nat × Nat)
  nextUid : Nat
  deriving DecidableEq, Repr

/-- Python dict lookup in `processing_tasks`. -/
def ptLookup (m : List (Nat × Nat)) (sid : Nat) : Option Nat :=
  (m.find? (fun e => e.1 = sid)).map (fun e => e.2)

/-- Python dict assignment `processing_tasks[sid] = task`. -/
def ptInsert : List (Nat × Nat) → Nat → Nat → List (Nat × Nat)
  | [], sid, uid => [(sid, uid)]
  | (s2, u2) :: rest, sid, uid =>
      if s2 = sid then (sid, uid) :: rest
      else (s2, u2) :: ptInsert rest sid uid

/-- Python `del processing_tasks[sid]` (no-op when absent, matching the
`if sid in processing_tasks` guard of `_cleanup_task`). -/
def ptErase (m : List (Nat × Nat)) (sid : Nat) : List (Nat × Nat) :=
  m.filter (fun e => ¬ e.1 = sid)

/-- `processing_tasks[sid].done()` for a tracked uid. -/
def taskDone (st : SchedState) (uid : Nat) : Bool :=
  match st.tasks.find? (fun t => t.uid = uid) with
  | some t => t.done
  | Option.none => false

/-- The start guard both polls use:
`sid not in processing_tasks or processing_tasks[sid].done()`. -/
def canStart (st : SchedState) (sid : Nat) : Bool :=
  match ptLookup st.tracked sid with
  | Option.none => true
  | some uid => taskDone st uid

/-- Starting a task for `sid`: create a live task, overwrite
`processing_tasks[sid]`, and register its done-callback. -/
def startTask (st : SchedState) (sid : Nat) : SchedState :=
  { tasks := st.tasks ++
      [{ uid := st.nextUid, sid := sid, done := false, cbRan := false }],
    tracked := ptInsert st.tracked sid st.nextUid,
    nextUid := st.nextUid + 1 }

/-- A task's coroutine returns: the task becomes done. -/
def completeTask (st : SchedState) (uid : Nat) : SchedState :=
  { st with tasks := st.tasks.map (fun t =>
      if t.uid = uid then { t with done := true } else t) }

/-- The done-callback of task `uid` runs `_cleanup_task(sid)`: it
deletes `processing_tasks[sid]` for ITS sid — whatever task that entry
currently points to. -/
def runCleanup (st : SchedState) (uid : Nat) : SchedState :=
  { st with
    tasks := st.tasks.map (fun t =>
      if t.uid = uid then { t with cbRan := true } else t),
    tracked :=
      match st.tasks.find? (fun t => t.uid = uid) with
      | some t => ptErase st.tracked t.sid
      | Option.none => st.tracked }

/-- There is a live (not yet done) task with identity `uid`. -/
def taskRunning (st : SchedState) (uid : Nat) : Bool :=
  st.tasks.any (fun t => t.uid = uid ∧ t.done = false)

/-- Task `uid` is done but its done-callback has not run yet. -/
def cbPending (st : SchedState) (uid : Nat) : Bool :=
  st.tasks.any (fun t => t.uid = uid ∧ t.done = true ∧ t.cbRan = false)

/-- One atomic event of the scheduler's event loop. -/
inductive SchedStep : SchedState → SchedState → Prop where
  | start (st : SchedState) (sid : Nat) (h : canStart st sid = true) :
      SchedStep st (startTask st sid)
  | complete (st : SchedState) (uid : Nat) (h : taskRunning st uid = true) :
      SchedStep st (completeTask st uid)
  | cleanup (st : SchedState) (uid : Nat) (h : cbPending st uid = true) :
      SchedStep st (runCleanup st uid)

/-- The scheduler before any task was started. -/
def initialSched : SchedState := { tasks := [], tracked := [], nextUid := 0 }

/-- Scheduler states reachable from startup. -/
def SchedReachable : SchedState → Prop :=
  Relation.ReflTransGen SchedStep initialSched

/-- Number of live tasks for one submission id. -/
def liveCount (st : SchedState) (sid : Nat) : Nat :=
  (st.tasks.filter (fun t => t.sid = sid ∧ t.done = false)).length

/-- The interleaving that defeats the guard: start task 0 for submission
1; task 0 completes; a poll starts task 1 for submission 1 (the guard
passes: task 0 is done) before task 0's done-callback has run; the
callback then runs and deletes the tracking entry — which now points to
the live task 1. -/
def schedRaceState : SchedState :=
  runCleanup (startTask (completeTask (startTask initialSched 1) 0) 1) 0

/-- C6: the reachable state `schedRaceState` has one live task for
submission 1 but no tracking entry, so the poll guard admits another
start and the next poll yields two concurrently live tasks for the same
submission id. -/
theorem scheduler_double_live_task :
    SchedReachable schedRaceState ∧
    liveCount schedRaceState 1 = 1 ∧
    canStart schedRaceState 1 = true ∧
    liveCount (startTask schedRaceState 1) 1 = 2 ∧
    SchedReachable (startTask schedRaceState 1) := by
  have h1 : SchedReachable schedRaceState :=
    Relation.ReflTransGen.tail (Relation.ReflTransGen.tail
      (Relation.ReflTransGen.tail (Relation.ReflTransGen.tail
        Relation.ReflTransGen.refl
        (SchedStep.start initialSched 1 (by decide)))
        (SchedStep.complete _ 0 (by decide)))
      (SchedStep.start _ 1 (by decide)))
      (SchedStep.cleanup _ 0 (by decide))
  refine ⟨h1, by decide, by decide, by decide, ?_⟩
  exact Relation.ReflTransGen.tail h1 (SchedStep.start _ 1 (by decide))

end GenieOps

namespace GenieOps

/-- A concrete text input element for the C8 witness. -/
def elemC8 : DomElement := { tag := TagKind.input, type := "text",
                             name := "full_name" }

/-- A concrete one-element page for the C8 witness. -/
def pageC8 : PageDoc := { elements := [elemC8] }

/-- C8 witness: the hidden-exclusion theorem applied to the one field a
concrete page extraction returns. -/
theorem dom_extraction_excludes_hidden_witness :
    ¬ (extractField pageC8 0 elemC8).type = "hidden" :=
  dom_extraction_excludes_hidden pageC8 Option.none
    (extractField pageC8 0 elemC8) (by decide)

end GenieOps
